import Mathlib

/-!
Shallow embedding of `src/ags/widget/inputCountsState.ts`: a per-day input
activity counter fed by parsed `libinput debug-events` lines, with a
normalizing loader, a leading-edge debounced saver and a day-rollover check.

Modelling conventions:
* JavaScript numbers are modelled by `JsNum`: a finite rational, `posInf`,
  `negInf` or `nan`.  Counter arithmetic in the running state only ever
  produces finite values, so the in-memory counters are plain `Rat`.
* JavaScript objects / `Map`s are association lists (`String × _`), with
  JS `Map.set` / `obj[k] = v` modelled by `setAssoc` (replace first
  occurrence or append) and `Map.delete` by `delAssoc`.
* Regular-expression searches over event lines are implemented directly as
  scanners over `List Char`, mirroring the leftmost-search semantics of the
  concrete patterns used by the source (`/^event(\d+)/i`,
  `/button\s+(\d+)/i`, `/\((KEY_[A-Z0-9_]+)\)/`, `/\bKEY_[A-Z0-9_]+\b/`,
  `/\bkey\s+(\d+)\b/i`, `/(\d+)\s*$/`, `/finger\s+[23]/i`,
  `/token\s+(-?\d+(?:\.\d+)?)/i`), and case-insensitive substring tests
  (`/PAT/i.test`) by `testCI`.
* GLib timers and file writes are modelled by a `World` record carrying the
  reactive state, the debounce pending flag (`saveSource !== null`) and the
  list of snapshots written to disk so far.
-/

namespace InputCounts

/-- A JavaScript number: finite value, an infinity, or NaN. -/
inductive JsNum where
  | fin (q : Rat)
  | posInf
  | negInf
  | nan
deriving DecidableEq, Repr

/-- JS `x > 0` on a number (false for NaN, true for +Infinity). -/
def JsNum.gtZero : JsNum → Bool
  | .fin q => decide (0 < q)
  | .posInf => true
  | _ => false

/-- `toNumber` from the source: `Number.isFinite(Number(v)) ? Number(v) : 0`.
The argument is already the result of the JS `Number(·)` coercion. -/
def toNumber : JsNum → Rat
  | .fin q => q
  | _ => 0

/-- First value bound to `k`, JS `Map.get` / object lookup. -/
def getAssoc {α : Type} : List (String × α) → String → Option α
  | [], _ => none
  | (k', v) :: rest, k => if k' = k then some v else getAssoc rest k

/-- JS `map.set(k, v)` / `obj[k] = v`: replace the first binding of `k`,
or append a new one. -/
def setAssoc {α : Type} : List (String × α) → String → α → List (String × α)
  | [], k, v => [(k, v)]
  | (k', v') :: rest, k, v =>
    if k' = k then (k, v) :: rest else (k', v') :: setAssoc rest k v

/-- JS `map.delete(k)`: drop the first binding of `k`. -/
def delAssoc {α : Type} : List (String × α) → String → List (String × α)
  | [], _ => []
  | (k', v') :: rest, k =>
    if k' = k then rest else (k', v') :: delAssoc rest k

/-- The `InputState` record of the source.  `date` is the local calendar
day key, `startedAt` an epoch-ms stamp kept as a raw JS number, all
counters JS numbers that the running code only ever adds to, and
`keyCounts` the per-key JS object. -/
structure InputState where
  date : String
  startedAt : JsNum
  left : Rat
  right : Rat
  keys : Rat
  leftMouse : Rat
  rightMouse : Rat
  leftPad : Rat
  rightPad : Rat
  scrollUp : Rat
  scrollDown : Rat
  scrollLeft : Rat
  scrollRight : Rat
  keyCounts : List (String × Rat)
deriving DecidableEq, Repr

/-- `defaultState()`: fresh zeroed record; `today` stands for `todayKey()`
and `now` for `Date.now()` at the call. -/
def defaultState (today : String) (now : Rat) : InputState where
  date := today
  startedAt := .fin now
  left := 0
  right := 0
  keys := 0
  leftMouse := 0
  rightMouse := 0
  leftPad := 0
  rightPad := 0
  scrollUp := 0
  scrollDown := 0
  scrollLeft := 0
  scrollRight := 0
  keyCounts := []

/-- The parsed on-disk document as far as `normalizeState` inspects it.
`date`: `none` when absent (or when the whole field is falsy we use
`some ""`, the only falsy string).  `startedAt`: `some n` iff the stored
value has JS type `number`, with value `n`.  Counter fields hold the
result of the JS `Number(·)` coercion of whatever was stored.
`keyCounts`: `none` when the stored value is falsy or not an object,
otherwise its entries with each value's `Number(·)` coercion. -/
structure RawState where
  date : Option String
  startedAt : Option JsNum
  left : JsNum
  right : JsNum
  keys : JsNum
  leftMouse : JsNum
  rightMouse : JsNum
  leftPad : JsNum
  rightPad : JsNum
  scrollUp : JsNum
  scrollDown : JsNum
  scrollLeft : JsNum
  scrollRight : JsNum
  keyCounts : Option (List (String × JsNum))
deriving DecidableEq, Repr

/-- `normalizeKeyCounts`: keep exactly the entries whose coerced value is
strictly positive (`out[key] = num` on a fresh object). -/
def normalizeKeyCounts (raw : Option (List (String × JsNum))) :
    List (String × Rat) :=
  match raw with
  | none => []
  | some entries =>
    entries.foldl
      (fun out e =>
        let num := toNumber e.2
        if 0 < num then setAssoc out e.1 num else out)
      []

/-- `normalizeState`: reject a record whose `date` is falsy or differs from
today; keep `startedAt` only when it is a positive JS number; coerce every
counter with `toNumber`; normalize `keyCounts`. -/
def normalizeState (raw : Option RawState) (today : String) (now : Rat) :
    InputState :=
  let base := defaultState today now
  match raw with
  | none => base
  | some r =>
    match r.date with
    | none => base
    | some d =>
      if d = "" ∨ d ≠ today then base
      else
        { date := d
          startedAt :=
            match r.startedAt with
            | some n => if n.gtZero then n else base.startedAt
            | none => base.startedAt
          left := toNumber r.left
          right := toNumber r.right
          keys := toNumber r.keys
          leftMouse := toNumber r.leftMouse
          rightMouse := toNumber r.rightMouse
          leftPad := toNumber r.leftPad
          rightPad := toNumber r.rightPad
          scrollUp := toNumber r.scrollUp
          scrollDown := toNumber r.scrollDown
          scrollLeft := toNumber r.scrollLeft
          scrollRight := toNumber r.scrollRight
          keyCounts := normalizeKeyCounts r.keyCounts }

/-- `loadState`: `contents` is `none` when the file is missing, unreadable
or fails JSON parsing (all swallowed into `defaultState()`); otherwise the
parse result (`none` inside = JSON `null` or non-object). -/
def loadState (contents : Option (Option RawState)) (today : String)
    (now : Rat) : InputState :=
  match contents with
  | none => defaultState today now
  | some parsed => normalizeState parsed today now

/-! ### Regex scanners over character lists -/

/-- Try a matcher at every suffix, leftmost match first — the search
behaviour of an unanchored JS regex. -/
def scanList {α : Type} (p : List Char → Option α) : List Char → Option α
  | [] => none
  | c :: cs =>
    match p (c :: cs) with
    | some a => some a
    | none => scanList p cs

/-- Like `scanList` but the matcher also sees the previous character, for
word-boundary (`\b`) checks. -/
def scanPrev {α : Type} (p : Option Char → List Char → Option α) :
    Option Char → List Char → Option α
  | _, [] => none
  | prev, c :: cs =>
    match p prev (c :: cs) with
    | some a => some a
    | none => scanPrev p (some c) cs

/-- Match a literal case-insensitively (the literal is given lowercase);
returns the rest of the input. -/
def matchLit : List Char → List Char → Option (List Char)
  | [], cs => some cs
  | _ :: _, [] => none
  | l :: ls, c :: cs => if c.toLower = l then matchLit ls cs else none

/-- Match a literal case-sensitively; returns the rest of the input. -/
def matchLitCS : List Char → List Char → Option (List Char)
  | [], cs => some cs
  | _ :: _, [] => none
  | l :: ls, c :: cs => if c = l then matchLitCS ls cs else none

/-- `/pat/i.test(text)` for a literal pattern: case-insensitive substring. -/
def testCI (pat text : String) : Bool :=
  (scanList (fun cs => matchLit (pat.toList.map Char.toLower) cs)
    text.toList).isSome

/-- `\s+`: one or more whitespace characters; returns the rest. -/
def matchWs : List Char → Option (List Char)
  | [] => none
  | c :: cs =>
    if c.isWhitespace then some (cs.dropWhile Char.isWhitespace) else none

/-- `\d+`: one or more digits; returns the digits and the rest. -/
def matchDigits (cs : List Char) : Option (List Char × List Char) :=
  let ds := cs.takeWhile Char.isDigit
  if ds.isEmpty then none else some (ds, cs.dropWhile Char.isDigit)

/-- Decimal digit string to `Nat` (JS `Number` on a captured `\d+`). -/
def digitsToNat (ds : List Char) : Nat :=
  ds.foldl (fun n c => n * 10 + (c.toNat - 48)) 0

/-- JS `\w`: ASCII letter, digit or underscore. -/
def isWordChar (c : Char) : Bool :=
  c.isAlpha || c.isDigit || c = '_'

/-- `text.match(/^event(\d+)/i)`: leading `event` then its digit capture. -/
def matchLeadingEvent (text : String) : Option String :=
  let cs := text.toList
  match matchLit ("event".toList) cs with
  | none => none
  | some rest =>
    match matchDigits rest with
    | none => none
    | some (ds, _) => some (String.mk ds)

/-- `text.match(/button\s+(\d+)/i)`: numeric capture after `button`. -/
def findButtonNum (text : String) : Option Nat :=
  scanList
    (fun cs =>
      (matchLit ("button".toList) cs).bind fun r =>
      (matchWs r).bind fun r =>
      (matchDigits r).map fun d => digitsToNat d.1)
    text.toList

/-- `-?\d+(?:\.\d+)?` as an exact rational. -/
def matchSignedDec (cs : List Char) : Option Rat :=
  let core : List Char → Option Rat := fun cs =>
    match matchDigits cs with
    | none => none
    | some (ds, rest) =>
      match rest with
      | '.' :: rest' =>
        match matchDigits rest' with
        | some (fs, _) =>
          some ((digitsToNat ds : Rat) +
            (digitsToNat fs : Rat) / ((10 : Rat) ^ fs.length))
        | none => some (digitsToNat ds : Rat)
      | _ => some (digitsToNat ds : Rat)
  match cs with
  | '-' :: rest =>
    match core rest with
    | some q => some (-q)
    | none => none
  | _ => core cs

/-- `parseAxis(text, token)`: search `/token\s+(-?\d+(?:\.\d+)?)/i` and
return the captured number (always finite here). -/
def parseAxis (text tok : String) : Option Rat :=
  scanList
    (fun cs =>
      (matchLit (tok.toList.map Char.toLower) cs).bind fun r =>
      (matchWs r).bind fun r => matchSignedDec r)
    text.toList

/-- `[A-Z0-9_]` — the key-name character class. -/
def isKeyChar (c : Char) : Bool :=
  ('A' ≤ c && c ≤ 'Z') || c.isDigit || c = '_'

/-- `text.match(/\((KEY_[A-Z0-9_]+)\)/)`: parenthesized key-name capture. -/
def findParenKey (text : String) : Option String :=
  scanList
    (fun cs =>
      match cs with
      | '(' :: rest =>
        (matchLitCS ("KEY_".toList) rest).bind fun r =>
          let run := r.takeWhile isKeyChar
          if run.isEmpty then none
          else
            match r.dropWhile isKeyChar with
            | ')' :: _ => some ("KEY_" ++ String.mk run)
            | _ => none
      | _ => none)
    text.toList

/-- `text.match(/\bKEY_[A-Z0-9_]+\b/)`: bare key-name token. -/
def findDirectKey (text : String) : Option String :=
  scanPrev
    (fun prev cs =>
      if (prev.map isWordChar).getD false then none
      else
        (matchLitCS ("KEY_".toList) cs).bind fun r =>
          let run := r.takeWhile isKeyChar
          if run.isEmpty then none
          else
            match r.dropWhile isKeyChar with
            | [] => some ("KEY_" ++ String.mk run)
            | c :: _ =>
              if isWordChar c then none
              else some ("KEY_" ++ String.mk run))
    none text.toList

/-- `text.match(/\bkey\s+(\d+)\b/i)`: the captured key-code digit string
(used verbatim in the `KEY_<digits>` template). -/
def findCodeKey (text : String) : Option String :=
  scanPrev
    (fun prev cs =>
      if (prev.map isWordChar).getD false then none
      else
        (matchLit ("key".toList) cs).bind fun r =>
        (matchWs r).bind fun r =>
        (matchDigits r).bind fun d =>
          match d.2 with
          | [] => some (String.mk d.1)
          | c :: _ => if isWordChar c then none else some (String.mk d.1))
    none text.toList

/-- `text.match(/(\d+)\s*$/)`: trailing digit run (whitespace allowed
after it). -/
def findTrailingNum (text : String) : Option Nat :=
  scanList
    (fun cs =>
      (matchDigits cs).bind fun d =>
        if d.2.all Char.isWhitespace then some (digitsToNat d.1) else none)
    text.toList

/-- `/finger\s+2/i` (or another single trailing digit). -/
def findFingerDigit (text : String) (d : Char) : Bool :=
  (scanList
    (fun cs =>
      (matchLit ("finger".toList) cs).bind fun r =>
      (matchWs r).bind fun r =>
        match r with
        | c :: _ => if c = d then some () else none
        | [] => none)
    text.toList).isSome

/-! ### Devices, press edges and the world -/

/-- Device classification. -/
inductive DeviceType where
  | mouse
  | touchpad
  | keyboard
  | unknown
deriving DecidableEq, Repr

/-- `classifyDevice`: substring heuristics over the lowercased line. -/
def classifyDevice (text : String) : DeviceType :=
  if testCI "touchpad" text || testCI "trackpad" text then .touchpad
  else if testCI "keyboard" text then .keyboard
  else if testCI "mouse" text || testCI "trackball" text ||
      testCI "trackpoint" text then .mouse
  else .unknown

/-- Per-device pressed flags for the two pointer buttons. -/
structure PressedState where
  left : Bool
  right : Bool
deriving DecidableEq, Repr

/-- Click side. -/
inductive Side where
  | left
  | right
deriving DecidableEq, Repr

/-- Click source. -/
inductive Source where
  | mouse
  | touchpad
deriving DecidableEq, Repr

/-- The mutable process state: the reactive `InputState`, the two
registries, the debounce flag (`saveSource !== null`) and the snapshots
written to disk so far (each `saveState` appends one). -/
structure World where
  st : InputState
  deviceTypes : List (String × DeviceType)
  pressedByEvent : List (String × PressedState)
  pending : Bool
  writes : List InputState
deriving DecidableEq, Repr

/-- `queueSave()`: leading-edge debounce — do nothing when a save is
already pending, otherwise arm the one-shot timer. -/
def queueSave (w : World) : World :=
  if w.pending then w else { w with pending := true }

/-- The debounce timer firing: clear `saveSource`, then `saveState(state())`
— the snapshot written is the state at fire time.  (A fire with no timer
armed cannot happen; modelled as a no-op.) -/
def fireTimer (w : World) : World :=
  if w.pending then
    { w with pending := false, writes := w.writes ++ [w.st] }
  else w

/-- The state updater inside `bumpClick` (lines 149–163 of the source). -/
def bumpClickS (side : Side) (source : Source) (prev : InputState) :
    InputState :=
  match side with
  | .left =>
    { prev with
      left := prev.left + 1
      leftMouse := prev.leftMouse + (if source = .mouse then 1 else 0)
      leftPad := prev.leftPad + (if source = .touchpad then 1 else 0) }
  | .right =>
    { prev with
      right := prev.right + 1
      rightMouse := prev.rightMouse + (if source = .mouse then 1 else 0)
      rightPad := prev.rightPad + (if source = .touchpad then 1 else 0) }

/-- `bumpClick`: update the state, then `queueSave()`. -/
def bumpClick (side : Side) (source : Source) (w : World) : World :=
  queueSave { w with st := bumpClickS side source w.st }

/-- The state updater inside `bumpKey`. -/
def bumpKeyS (keyName : String) (prev : InputState) : InputState :=
  let old := (getAssoc prev.keyCounts keyName).getD 0
  { prev with
    keys := prev.keys + 1
    keyCounts := setAssoc prev.keyCounts keyName (old + 1) }

/-- `bumpKey`: update the state, then `queueSave()`. -/
def bumpKey (keyName : String) (w : World) : World :=
  queueSave { w with st := bumpKeyS keyName w.st }

/-- The state updater inside `bumpScroll` (both arguments already known
finite; `some 0` is falsy in the guards). -/
def bumpScrollS (vertical horizontal : Option Rat) (prev : InputState) :
    InputState :=
  let next :=
    match vertical with
    | some v =>
      if v = 0 then prev
      else if 0 < v then { prev with scrollUp := prev.scrollUp + v }
      else { prev with scrollDown := prev.scrollDown + |v| }
    | none => prev
  match horizontal with
  | some h =>
    if h = 0 then next
    else if 0 < h then { next with scrollRight := next.scrollRight + h }
    else { next with scrollLeft := next.scrollLeft + |h| }
  | none => next

/-- `bumpScroll`: early return (no `queueSave`) when both axes are falsy
(null or zero); otherwise update and `queueSave()`. -/
def bumpScroll (vertical horizontal : Option Rat) (w : World) : World :=
  if (vertical = none ∨ vertical = some 0) ∧
      (horizontal = none ∨ horizontal = some 0) then w
  else queueSave { w with st := bumpScrollS vertical horizontal w.st }

/-- `ensureToday()`: on a date mismatch replace the record with
`{ ...defaultState(), date: today }` and `saveState` it immediately
(the debounce flag is untouched). -/
def ensureToday (today : String) (now : Rat) (w : World) : World :=
  if w.st.date = today then w
  else
    let next := { defaultState today now with date := today }
    { w with st := next, writes := w.writes ++ [next] }

/-! ### The line watcher -/

/-- A parsed JSON event line as far as the watcher inspects it.
`type` / `state`: the fields when present as strings.  `button`: the JS
`Number(payload.button)` coercion result (`.nan` when the field is
absent).  `key`: present integer keycode, or `none` (then the literal
`UNKNOWN` is used). -/
structure JsonPayload where
  type : Option String
  state : Option String
  button : JsNum
  key : Option Int
deriving DecidableEq, Repr

/-- The JSON branch of the watcher (source lines 266–291).  `payload` is
`none` when `JSON.parse` threw or returned a non-object. -/
def handleJson (payload : Option JsonPayload) (w : World) : World :=
  match payload with
  | none => w
  | some p =>
    let w1 :=
      if p.type = some "pointer_button" ∧ p.state = some "pressed" then
        if p.button = .fin 272 then bumpClick .left .mouse w
        else if p.button = .fin 273 then bumpClick .right .mouse w
        else w
      else w
    if (p.type = some "key" ∨ p.type = some "keyboard_key") ∧
        p.state = some "pressed" then
      bumpKey ("KEY_" ++
        (match p.key with
         | some n => toString n
         | none => "UNKNOWN")) w1
    else w1

/-- The `POINTER_BUTTON` textual branch (source lines 313–351): edge
detection on the per-device pressed flags, with a numeric `button N`
fallback when neither `BTN_LEFT` nor `BTN_RIGHT` appears. -/
def buttonBranch (text eventId : String) (w : World) : World :=
  let isPressed := testCI "pressed" text
  let isReleased := testCI "released" text
  let isLeft := testCI "BTN_LEFT" text
  let isRight := testCI "BTN_RIGHT" text
  let deviceType := (getAssoc w.deviceTypes eventId).getD .unknown
  let source : Source :=
    if deviceType = .touchpad then .touchpad else .mouse
  let pressed := (getAssoc w.pressedByEvent eventId).getD ⟨false, false⟩
  let bumpLeft : World × PressedState :=
    (if isPressed || (isReleased && !pressed.left) then
        bumpClick .left source w
      else w,
     { pressed with
       left := if isPressed then true
         else if isReleased then false else pressed.left })
  let bumpRight : World × PressedState :=
    (if isPressed || (isReleased && !pressed.right) then
        bumpClick .right source w
      else w,
     { pressed with
       right := if isPressed then true
         else if isReleased then false else pressed.right })
  let step : World × PressedState :=
    if isLeft then bumpLeft
    else if isRight then bumpRight
    else
      match findButtonNum text with
      | some n =>
        if n = 272 ∨ n = 1 then bumpLeft
        else if n = 273 ∨ n = 3 then bumpRight
        else (w, pressed)
      | none => (w, pressed)
  { step.1 with
    pressedByEvent := setAssoc step.1.pressedByEvent eventId step.2 }

/-- The `KEYBOARD_KEY` key-name selection (source lines 366–372):
parenthesized capture, else bare token, else `KEY_<digits>`, else
`KEY_UNKNOWN`. -/
def keyboardKeyName (text : String) : String :=
  match findParenKey text with
  | some k => k
  | none =>
    match findDirectKey text with
    | some k => k
    | none =>
      match findCodeKey text with
      | some ds => "KEY_" ++ ds
      | none => "KEY_UNKNOWN"

/-- The textual (non-JSON) part of the watcher callback (source lines
293–374).  `DEVICE_ADDED` and `DEVICE_REMOVED` return early; the
remaining pattern branches apply in sequence, each firing when its
pattern matches. -/
def handleText (text : String) (w : World) : World :=
  let eventId := (matchLeadingEvent text).getD "unknown"
  if testCI "DEVICE_ADDED" text then
    let kind := classifyDevice text
    { w with deviceTypes := setAssoc w.deviceTypes eventId kind }
  else if testCI "DEVICE_REMOVED" text then
    { w with
      deviceTypes := delAssoc w.deviceTypes eventId
      pressedByEvent := delAssoc w.pressedByEvent eventId }
  else
    let w1 :=
      if testCI "POINTER_SCROLL_" text then
        let vertical :=
          match parseAxis text "vert" with
          | some v => some v
          | none => parseAxis text "vertical"
        let horizontal :=
          match parseAxis text "horiz" with
          | some h => some h
          | none => parseAxis text "horizontal"
        bumpScroll vertical horizontal w
      else w
    let w2 :=
      if testCI "POINTER_BUTTON" text &&
          (testCI "pressed" text || testCI "released" text) then
        buttonBranch text eventId w1
      else w1
    let w3 :=
      if testCI "POINTER_TAP" text || testCI "TOUCHPAD_TAP" text ||
          testCI "GESTURE_TAP" text then
        let isRight := findFingerDigit text '2' || findFingerDigit text '3'
        bumpClick (if isRight then .right else .left) .touchpad w2
      else w2
    let w4 :=
      if testCI "GESTURE_HOLD_BEGIN" text then
        let fingers := (findTrailingNum text).getD 1
        let isRight := 2 ≤ fingers
        bumpClick (if isRight then .right else .left) .touchpad w3
      else w3
    if testCI "KEYBOARD_KEY" text && testCI "pressed" text then
      bumpKey (keyboardKeyName text) w4
    else w4

/-! ### Derived folds, selectors and concrete fixtures -/

/-- Total clicks on a side. -/
def sideTotal : Side → InputState → Rat
  | .left, s => s.left
  | .right, s => s.right

/-- The per-source sub-counter of a side. -/
def subCount : Side → Source → InputState → Rat
  | .left, .mouse, s => s.leftMouse
  | .left, .touchpad, s => s.leftPad
  | .right, .mouse, s => s.rightMouse
  | .right, .touchpad, s => s.rightPad

/-- The other click source. -/
def otherSource : Source → Source
  | .mouse => .touchpad
  | .touchpad => .mouse

/-- A finite sequence of `incrementClick` calls on the state. -/
def applyClicks (calls : List (Side × Source)) (s : InputState) :
    InputState :=
  calls.foldl (fun acc c => bumpClickS c.1 c.2 acc) s

/-- A finite sequence of `incrementKey` calls on the state. -/
def applyKeys (names : List String) (s : InputState) : InputState :=
  names.foldl (fun acc k => bumpKeyS k acc) s

/-- A concrete process start: fresh default state, empty registries, no
pending save, nothing written yet. -/
def initWorld : World where
  st := defaultState "2026-10-11" 1000
  deviceTypes := []
  pressedByEvent := []
  pending := false
  writes := []

/-- A textual left-button release line (no press recorded before it). -/
def relLine : String :=
  "event1   POINTER_BUTTON  +5.40s BTN_LEFT (272) released"

/-- A textual left-button press line for the same device. -/
def pressLine : String :=
  "event1   POINTER_BUTTON  +5.40s BTN_LEFT (272) pressed"

/-- A line matching both the `DEVICE_ADDED` pattern and the
`POINTER_TAP` pattern. -/
def addedTapLine : String := "event2 DEVICE_ADDED POINTER_TAP touchpad"

/-- A line matching both the tap pattern and the keyboard pattern. -/
def tapKeyLine : String := "event3 POINTER_TAP KEYBOARD_KEY KEY_A pressed"

/-- The parsed JSON line
`\x7b"type":"pointer_button","state":"pressed","button":272\x7d`. -/
def payloadLeft : JsonPayload where
  type := some "pointer_button"
  state := some "pressed"
  button := .fin 272
  key := none

/-- Same shape with button code 273. -/
def payloadRight : JsonPayload where
  type := some "pointer_button"
  state := some "pressed"
  button := .fin 273
  key := none

/-- Same shape with an arbitrary button value. -/
def payloadButton (b : JsNum) : JsonPayload where
  type := some "pointer_button"
  state := some "pressed"
  button := b
  key := none

/-- A stored record dated 2026-10-11 whose `left` counter is negative,
whose `right` is NaN, and whose `startedAt` is the number 0. -/
def rawNeg : RawState where
  date := some "2026-10-11"
  startedAt := some (.fin 0)
  left := .fin (-5)
  right := .nan
  keys := .fin 7
  leftMouse := .fin 0
  rightMouse := .fin 0
  leftPad := .fin 0
  rightPad := .fin 0
  scrollUp := .fin 0
  scrollDown := .fin 0
  scrollLeft := .fin 0
  scrollRight := .fin 0
  keyCounts := none

/-- Stored key-count entries: one positive, one zero, one NaN. -/
def kcEntries : List (String × JsNum) :=
  [("a", .fin 3), ("b", .fin 0), ("c", .nan)]

/-! ### Helper lemmas -/

theorem queueSave_st (w : World) : (queueSave w).st = w.st := by
  unfold queueSave; split <;> rfl

theorem queueSave_pressed (w : World) :
    (queueSave w).pressedByEvent = w.pressedByEvent := by
  unfold queueSave; split <;> rfl

theorem queueSave_devices (w : World) :
    (queueSave w).deviceTypes = w.deviceTypes := by
  unfold queueSave; split <;> rfl

theorem queueSave_writes (w : World) : (queueSave w).writes = w.writes := by
  unfold queueSave; split <;> rfl

theorem bumpClick_st (side : Side) (source : Source) (w : World) :
    (bumpClick side source w).st = bumpClickS side source w.st := by
  simp [bumpClick, queueSave_st]

theorem bumpClick_pressed (side : Side) (source : Source) (w : World) :
    (bumpClick side source w).pressedByEvent = w.pressedByEvent := by
  simp [bumpClick, queueSave_pressed]

theorem getAssoc_setAssoc {α : Type} (l : List (String × α)) (k : String)
    (v : α) : getAssoc (setAssoc l k v) k = some v := by
  induction l with
  | nil => simp [setAssoc, getAssoc]
  | cons hd tl ih =>
    obtain ⟨k', v'⟩ := hd
    by_cases h : k' = k
    · simp [setAssoc, h, getAssoc]
    · simp [setAssoc, h, getAssoc, ih]

theorem mem_setAssoc {α : Type} {p : String × α} :
    ∀ {l : List (String × α)} {k : String} {v : α},
      p ∈ setAssoc l k v → p = (k, v) ∨ p ∈ l := by
  intro l
  induction l with
  | nil => intro k v h; simpa [setAssoc] using h
  | cons hd tl ih =>
    intro k v h
    obtain ⟨k', v'⟩ := hd
    by_cases hk : k' = k
    · simp only [setAssoc, if_pos hk, List.mem_cons] at h
      rcases h with h | h
      · exact Or.inl h
      · exact Or.inr (List.mem_cons_of_mem _ h)
    · simp only [setAssoc, if_neg hk, List.mem_cons] at h
      rcases h with h | h
      · exact Or.inr (h ▸ List.mem_cons_self _ _)
      · rcases ih h with h' | h'
        · exact Or.inl h'
        · exact Or.inr (List.mem_cons_of_mem _ h')

theorem getAssoc_mem {α : Type} :
    ∀ {l : List (String × α)} {k : String} {v : α},
      getAssoc l k = some v → (k, v) ∈ l := by
  intro l
  induction l with
  | nil => intro k v h; simp [getAssoc] at h
  | cons hd tl ih =>
    intro k v h
    obtain ⟨k', v'⟩ := hd
    by_cases hk : k' = k
    · simp only [getAssoc, if_pos hk, Option.some.injEq] at h
      subst hk; subst h; exact List.mem_cons_self _ _
    · simp only [getAssoc, if_neg hk] at h
      exact List.mem_cons_of_mem _ (ih h)

theorem sum_setAssoc (l : List (String × Rat)) (k : String) (v : Rat) :
    ((setAssoc l k v).map Prod.snd).sum =
      (l.map Prod.snd).sum + v - ((getAssoc l k).getD 0) := by
  induction l with
  | nil => simp [setAssoc, getAssoc]
  | cons hd tl ih =>
    obtain ⟨k', v'⟩ := hd
    by_cases h : k' = k
    · simp only [setAssoc, if_pos h, getAssoc, List.map_cons, List.sum_cons,
        Option.getD_some]
      ring
    · simp only [setAssoc, if_neg h, getAssoc, List.map_cons, List.sum_cons,
        ih]
      ring

theorem getAssoc_append {α : Type} (l1 l2 : List (String × α)) (k : String)
    (h : getAssoc l1 k = none) : getAssoc (l1 ++ l2) k = getAssoc l2 k := by
  induction l1 with
  | nil => simp
  | cons hd tl ih =>
    obtain ⟨k', v'⟩ := hd
    by_cases hk : k' = k
    · simp [getAssoc, hk] at h
    · simp only [getAssoc, if_neg hk] at h
      simpa [getAssoc, hk] using ih h

theorem setAssoc_of_none {α : Type} (l : List (String × α)) (k : String)
    (v : α) (h : getAssoc l k = none) : setAssoc l k v = l ++ [(k, v)] := by
  induction l with
  | nil => simp [setAssoc]
  | cons hd tl ih =>
    obtain ⟨k', v'⟩ := hd
    by_cases hk : k' = k
    · simp [getAssoc, hk] at h
    · simp only [getAssoc, if_neg hk] at h
      simp [setAssoc, hk, ih h]

theorem bumpClickS_keeps (side : Side) (source : Source) (s : InputState)
    (h1 : s.left = s.leftMouse + s.leftPad)
    (h2 : s.right = s.rightMouse + s.rightPad) :
    (bumpClickS side source s).left =
        (bumpClickS side source s).leftMouse +
          (bumpClickS side source s).leftPad ∧
      (bumpClickS side source s).right =
        (bumpClickS side source s).rightMouse +
          (bumpClickS side source s).rightPad := by
  cases side <;> cases source <;> simp [bumpClickS] <;>
    constructor <;> linarith

/-! ### Claim theorems -/

/-- C2: starting from any record satisfying the per-side decomposition
invariant, any finite sequence of `incrementClick` calls preserves
`left = leftMouse + leftPad` and `right = rightMouse + rightPad`; and each
single call adds 1 to the chosen side's total, adds 1 to exactly the
sub-counter of its source, and leaves the side's other sub-counter
unchanged. -/
theorem incrementClick_invariant (s : InputState)
    (calls : List (Side × Source))
    (h1 : s.left = s.leftMouse + s.leftPad)
    (h2 : s.right = s.rightMouse + s.rightPad) :
    ((applyClicks calls s).left =
        (applyClicks calls s).leftMouse + (applyClicks calls s).leftPad ∧
      (applyClicks calls s).right =
        (applyClicks calls s).rightMouse +
          (applyClicks calls s).rightPad) ∧
    ∀ (side : Side) (source : Source) (t : InputState),
      sideTotal side (bumpClickS side source t) = sideTotal side t + 1 ∧
      subCount side source (bumpClickS side source t) =
        subCount side source t + 1 ∧
      subCount side (otherSource source) (bumpClickS side source t) =
        subCount side (otherSource source) t := by
  constructor
  · induction calls generalizing s with
    | nil => exact ⟨h1, h2⟩
    | cons c rest ih =>
      have h := bumpClickS_keeps c.1 c.2 s h1 h2
      simpa [applyClicks] using ih (bumpClickS c.1 c.2 s) h.1 h.2
  · intro side source t
    cases side <;> cases source <;>
      simp [bumpClickS, sideTotal, subCount, otherSource]

/-- Witness for `incrementClick_invariant` at a concrete record and call
sequence. -/
theorem incrementClick_invariant_witness :
    ((defaultState "d" 1).left =
        (defaultState "d" 1).leftMouse + (defaultState "d" 1).leftPad) ∧
    ((applyClicks [(.left, .mouse), (.right, .touchpad)]
        (defaultState "d" 1)).left =
      (applyClicks [(.left, .mouse), (.right, .touchpad)]
        (defaultState "d" 1)).leftMouse +
        (applyClicks [(.left, .mouse), (.right, .touchpad)]
          (defaultState "d" 1)).leftPad) :=
  ⟨by simp [defaultState],
    (incrementClick_invariant (defaultState "d" 1)
      [(.left, .mouse), (.right, .touchpad)] (by simp [defaultState])
      (by simp [defaultState])).1.1⟩

/-- C5: when the stored date differs from today, `ensureToday` replaces
the whole record with a fresh zeroed record dated today (fresh
`startedAt`, empty `keyCounts`) and writes it to disk immediately — the
debounce flag is not consulted or changed. -/
theorem ensureToday_rollover (w : World) (today : String) (now : Rat)
    (h : w.st.date ≠ today) :
    ensureToday today now w =
      { w with
        st := defaultState today now
        writes := w.writes ++ [defaultState today now] } ∧
    (defaultState today now).date = today ∧
    (defaultState today now).startedAt = .fin now ∧
    (defaultState today now).left = 0 ∧
    (defaultState today now).right = 0 ∧
    (defaultState today now).keys = 0 ∧
    (defaultState today now).leftMouse = 0 ∧
    (defaultState today now).rightMouse = 0 ∧
    (defaultState today now).leftPad = 0 ∧
    (defaultState today now).rightPad = 0 ∧
    (defaultState today now).scrollUp = 0 ∧
    (defaultState today now).scrollDown = 0 ∧
    (defaultState today now).scrollLeft = 0 ∧
    (defaultState today now).scrollRight = 0 ∧
    (defaultState today now).keyCounts = [] ∧
    (ensureToday today now w).pending = w.pending := by
  refine ⟨?_, by simp [defaultState], by simp [defaultState],
    by simp [defaultState], by simp [defaultState], by simp [defaultState],
    by simp [defaultState], by simp [defaultState], by simp [defaultState],
    by simp [defaultState], by simp [defaultState], by simp [defaultState],
    by simp [defaultState], by simp [defaultState], by simp [defaultState],
    ?_⟩
  · simp [ensureToday, h, defaultState]
  · simp [ensureToday, h]

/-- Witness for `ensureToday_rollover` on a stale stored date. -/
theorem ensureToday_rollover_witness :
    initWorld.st.date ≠ "2026-10-12" ∧
    ensureToday "2026-10-12" 2000 initWorld =
      { initWorld with
        st := defaultState "2026-10-12" 2000
        writes := initWorld.writes ++ [defaultState "2026-10-12" 2000] } :=
  ⟨by decide,
    (ensureToday_rollover initWorld "2026-10-12" 2000 (by decide)).1⟩

/-- C6: `queueSave` while a save is pending is a no-op; and from an idle
world, two increments followed by the timer firing produce exactly one
write, whose payload is the state at fire time and so reflects both
increments (nothing was written before the fire). -/
theorem debounce_coalesces :
    (∀ w : World, w.pending = true → queueSave w = w) ∧
    ∀ (w : World) (s1 : Side) (c1 : Source) (s2 : Side) (c2 : Source),
      w.pending = false →
      bumpClick s2 c2 (bumpClick s1 c1 w) =
        { w with
          st := bumpClickS s2 c2 (bumpClickS s1 c1 w.st)
          pending := true } ∧
      fireTimer (bumpClick s2 c2 (bumpClick s1 c1 w)) =
        { w with
          st := bumpClickS s2 c2 (bumpClickS s1 c1 w.st)
          pending := false
          writes := w.writes ++ [bumpClickS s2 c2 (bumpClickS s1 c1 w.st)] } := by
  constructor
  · intro w h; simp [queueSave, h]
  · intro w s1 c1 s2 c2 h
    have h1 : bumpClick s1 c1 w =
        { w with st := bumpClickS s1 c1 w.st, pending := true } := by
      simp [bumpClick, queueSave, h]
    have h2 : bumpClick s2 c2 (bumpClick s1 c1 w) =
        { w with
          st := bumpClickS s2 c2 (bumpClickS s1 c1 w.st)
          pending := true } := by
      rw [h1]; simp [bumpClick, queueSave]
    refine ⟨h2, ?_⟩
    rw [h2]; simp [fireTimer]

/-- Witness for `debounce_coalesces`: a pending-save no-op and a concrete
double increment with one coalesced write. -/
theorem debounce_coalesces_witness :
    queueSave { initWorld with pending := true } =
      { initWorld with pending := true } ∧
    fireTimer (bumpClick .right .touchpad (bumpClick .left .mouse
        initWorld)) =
      { initWorld with
        st := bumpClickS .right .touchpad (bumpClickS .left .mouse
          initWorld.st)
        pending := false
        writes := initWorld.writes ++
          [bumpClickS .right .touchpad (bumpClickS .left .mouse
            initWorld.st)] } :=
  ⟨debounce_coalesces.1 _ rfl,
    (debounce_coalesces.2 initWorld .left .mouse .right .touchpad rfl).2⟩

/-- C7: the JSON line with `pointer_button` / `pressed` / button 272 bumps
exactly `left` and `leftMouse`; button 273 bumps exactly `right` and
`rightMouse`; any other button value in that shape leaves the world
untouched. -/
theorem json_pointer_button (w : World) :
    (handleJson (some payloadLeft) w).st =
      { w.st with
        left := w.st.left + 1
        leftMouse := w.st.leftMouse + 1 } ∧
    (handleJson (some payloadRight) w).st =
      { w.st with
        right := w.st.right + 1
        rightMouse := w.st.rightMouse + 1 } ∧
    ∀ b : JsNum, b ≠ .fin 272 → b ≠ .fin 273 →
      handleJson (some (payloadButton b)) w = w := by
  refine ⟨?_, ?_, ?_⟩
  · simp [handleJson, payloadLeft, bumpClick_st, bumpClickS]
  · simp [handleJson, payloadRight, bumpClick_st, bumpClickS]
  · intro b hb hb'
    simp [handleJson, payloadButton, hb, hb']

/-- Witness for `json_pointer_button` at the initial world and button
value 300. -/
theorem json_pointer_button_witness :
    (handleJson (some payloadLeft) initWorld).st =
      { initWorld.st with
        left := initWorld.st.left + 1
        leftMouse := initWorld.st.leftMouse + 1 } ∧
    handleJson (some (payloadButton (.fin 300))) initWorld = initWorld :=
  ⟨(json_pointer_button initWorld).1,
    (json_pointer_button initWorld).2.2 (.fin 300) (by decide) (by decide)⟩

/-- Helper: on a textual BTN_LEFT line carrying `released` (and no other
firing pattern), `handleText` bumps the left counter exactly when the
stored press flag is false, and the flag is false afterwards in both
cases. -/
theorem release_edge_step (w : World) (text : String)
    (hPB : testCI "POINTER_BUTTON" text = true)
    (hRel : testCI "released" text = true)
    (hPr : testCI "pressed" text = false)
    (hLeft : testCI "BTN_LEFT" text = true)
    (hAdd : testCI "DEVICE_ADDED" text = false)
    (hRem : testCI "DEVICE_REMOVED" text = false)
    (hScr : testCI "POINTER_SCROLL_" text = false)
    (hTap1 : testCI "POINTER_TAP" text = false)
    (hTap2 : testCI "TOUCHPAD_TAP" text = false)
    (hTap3 : testCI "GESTURE_TAP" text = false)
    (hHold : testCI "GESTURE_HOLD_BEGIN" text = false) :
    (((getAssoc w.pressedByEvent
          ((matchLeadingEvent text).getD "unknown")).getD
        ⟨false, false⟩).left = false →
      (handleText text w).st.left = w.st.left + 1 ∧
      getAssoc (handleText text w).pressedByEvent
          ((matchLeadingEvent text).getD "unknown") =
        some ⟨false,
          ((getAssoc w.pressedByEvent
              ((matchLeadingEvent text).getD "unknown")).getD
            ⟨false, false⟩).right⟩) ∧
    (((getAssoc w.pressedByEvent
          ((matchLeadingEvent text).getD "unknown")).getD
        ⟨false, false⟩).left = true →
      (handleText text w).st = w.st ∧
      getAssoc (handleText text w).pressedByEvent
          ((matchLeadingEvent text).getD "unknown") =
        some ⟨false,
          ((getAssoc w.pressedByEvent
              ((matchLeadingEvent text).getD "unknown")).getD
            ⟨false, false⟩).right⟩) := by
  have hHT : handleText text w =
      buttonBranch text ((matchLeadingEvent text).getD "unknown") w := by
    unfold handleText
    simp [hPB, hRel, hPr, hAdd, hRem, hScr, hTap1, hTap2, hTap3, hHold]
  rw [hHT]
  unfold buttonBranch
  simp only [hPB, hRel, hPr, hLeft, Bool.false_or, Bool.true_and,
    Bool.and_true, if_true, if_false, Bool.false_eq_true, ite_true,
    ite_false]
  constructor
  · intro hflag
    simp only [hflag, Bool.not_false, Bool.or_true, if_true, ite_true]
    constructor
    · simp [bumpClick_st, bumpClickS]
    · rw [bumpClick_pressed]
      rw [getAssoc_setAssoc]
  · intro hflag
    simp only [hflag, Bool.not_true, Bool.or_false, if_false, ite_false]
    constructor
    · rfl
    · rw [getAssoc_setAssoc]

/-- C1 (corrected): a textual `POINTER_BUTTON BTN_LEFT released` line
processed while the press flag is false produces exactly one left click
and leaves the flag false — so a second release with no intervening press
produces one further click (not zero); a release with the flag true
produces no click and clears the flag. -/
theorem orphan_release_amended (w : World) (text : String)
    (hPB : testCI "POINTER_BUTTON" text = true)
    (hRel : testCI "released" text = true)
    (hPr : testCI "pressed" text = false)
    (hLeft : testCI "BTN_LEFT" text = true)
    (hAdd : testCI "DEVICE_ADDED" text = false)
    (hRem : testCI "DEVICE_REMOVED" text = false)
    (hScr : testCI "POINTER_SCROLL_" text = false)
    (hTap1 : testCI "POINTER_TAP" text = false)
    (hTap2 : testCI "TOUCHPAD_TAP" text = false)
    (hTap3 : testCI "GESTURE_TAP" text = false)
    (hHold : testCI "GESTURE_HOLD_BEGIN" text = false)
    (hflag : ((getAssoc w.pressedByEvent
        ((matchLeadingEvent text).getD "unknown")).getD
      ⟨false, false⟩).left = false) :
    (handleText text w).st.left = w.st.left + 1 ∧
    (handleText text (handleText text w)).st.left = w.st.left + 1 + 1 ∧
    ∀ w' : World,
      ((getAssoc w'.pressedByEvent
          ((matchLeadingEvent text).getD "unknown")).getD
        ⟨false, false⟩).left = true →
      (handleText text w').st = w'.st := by
  have e1 := release_edge_step w text hPB hRel hPr hLeft hAdd hRem hScr
    hTap1 hTap2 hTap3 hHold
  have h1 := e1.1 hflag
  have e2 := release_edge_step (handleText text w) text hPB hRel hPr hLeft
    hAdd hRem hScr hTap1 hTap2 hTap3 hHold
  have hflag2 : ((getAssoc (handleText text w).pressedByEvent
      ((matchLeadingEvent text).getD "unknown")).getD
    ⟨false, false⟩).left = false := by
    rw [h1.2]; rfl
  have h2 := e2.1 hflag2
  refine ⟨h1.1, ?_, ?_⟩
  · rw [h2.1, h1.1]
  · intro w' hflag'
    exact ((release_edge_step w' text hPB hRel hPr hLeft hAdd hRem hScr
      hTap1 hTap2 hTap3 hHold).2 hflag').1

/-- C1 counterexample: from a fresh world with no recorded press, the
first orphan `BTN_LEFT released` line adds one left click, and a second
identical release adds another — the claim's "zero additional clicks" is
false. -/
theorem orphan_release_counterexample :
    (handleText relLine initWorld).st.left = initWorld.st.left + 1 ∧
    (handleText relLine (handleText relLine initWorld)).st.left =
      (handleText relLine initWorld).st.left + 1 ∧
    (handleText relLine (handleText relLine initWorld)).st.left ≠
      (handleText relLine initWorld).st.left := by
  have e1 := release_edge_step initWorld relLine (by decide) (by decide)
    (by decide) (by decide) (by decide) (by decide) (by decide) (by decide)
    (by decide) (by decide) (by decide)
  have h1 := e1.1 (by decide)
  have e2 := release_edge_step (handleText relLine initWorld) relLine
    (by decide) (by decide) (by decide) (by decide) (by decide) (by decide)
    (by decide) (by decide) (by decide) (by decide) (by decide)
  have hflag2 : ((getAssoc (handleText relLine initWorld).pressedByEvent
      ((matchLeadingEvent relLine).getD "unknown")).getD
    ⟨false, false⟩).left = false := by
    rw [h1.2]; rfl
  have h2 := e2.1 hflag2
  refine ⟨h1.1, h2.1, ?_⟩
  rw [h2.1]
  exact (lt_add_one _).ne'

/-- Witness for `orphan_release_amended` on the concrete release line and
the fresh world. -/
theorem orphan_release_amended_witness :
    (handleText relLine initWorld).st.left = initWorld.st.left + 1 ∧
    (handleText relLine (handleText relLine initWorld)).st.left =
      initWorld.st.left + 1 + 1 :=
  ⟨(orphan_release_amended initWorld relLine (by decide) (by decide)
      (by decide) (by decide) (by decide) (by decide) (by decide)
      (by decide) (by decide) (by decide) (by decide) (by decide)).1,
    (orphan_release_amended initWorld relLine (by decide) (by decide)
      (by decide) (by decide) (by decide) (by decide) (by decide)
      (by decide) (by decide) (by decide) (by decide) (by decide)).2.1⟩

/-- C4 (corrected): the `DEVICE_ADDED` and `DEVICE_REMOVED` branches
return early, so a matching line only updates the registries and no
later-listed branch fires on it; only the remaining branches (scroll,
pointer-button, tap, gesture-hold, keyboard) are non-exclusive, e.g. one
line matching both the tap and keyboard patterns bumps a click and a
key. -/
theorem textual_dispatch_amended :
    (∀ (w : World) (text : String), testCI "DEVICE_ADDED" text = true →
      handleText text w =
        { w with
          deviceTypes := setAssoc w.deviceTypes
            ((matchLeadingEvent text).getD "unknown")
            (classifyDevice text) }) ∧
    (∀ (w : World) (text : String),
      testCI "DEVICE_ADDED" text = false →
      testCI "DEVICE_REMOVED" text = true →
      handleText text w =
        { w with
          deviceTypes := delAssoc w.deviceTypes
            ((matchLeadingEvent text).getD "unknown")
          pressedByEvent := delAssoc w.pressedByEvent
            ((matchLeadingEvent text).getD "unknown") }) ∧
    (handleText tapKeyLine initWorld).st.left = initWorld.st.left + 1 ∧
    (handleText tapKeyLine initWorld).st.keys = initWorld.st.keys + 1 := by
  refine ⟨?_, ?_, ?_, ?_⟩
  · intro w text h
    unfold handleText
    simp [h]
  · intro w text h h'
    unfold handleText
    simp [h, h']
  · rfl
  · rfl

/-- C4 counterexample: a line matching both `DEVICE_ADDED` and
`POINTER_TAP` registers the device but emits no tap click — the branches
are not non-exclusive as claimed. -/
theorem textual_dispatch_counterexample :
    testCI "DEVICE_ADDED" addedTapLine = true ∧
    testCI "POINTER_TAP" addedTapLine = true ∧
    (handleText addedTapLine initWorld).deviceTypes =
      [("2", DeviceType.touchpad)] ∧
    (handleText addedTapLine initWorld).st = initWorld.st := by
  refine ⟨by decide, by decide, rfl, rfl⟩

/-- Witness for `textual_dispatch_amended` on the combined
added-plus-tap line. -/
theorem textual_dispatch_amended_witness :
    handleText addedTapLine initWorld =
      { initWorld with
        deviceTypes := setAssoc initWorld.deviceTypes
          ((matchLeadingEvent addedTapLine).getD "unknown")
          (classifyDevice addedTapLine) } :=
  textual_dispatch_amended.1 initWorld addedTapLine (by decide)

/-- C3 (amended): loading a record dated today coerces every counter with
`toNumber` — values whose coercion is non-finite become 0, finite values
are kept unchanged, including negative ones; non-negativity is not
enforced. -/
theorem load_coerces_counters (raw : RawState) (today : String) (now : Rat)
    (hd : raw.date = some today) (ht : today ≠ "") :
    (normalizeState (some raw) today now).left = toNumber raw.left ∧
    (normalizeState (some raw) today now).right = toNumber raw.right ∧
    (normalizeState (some raw) today now).keys = toNumber raw.keys ∧
    (normalizeState (some raw) today now).leftMouse =
      toNumber raw.leftMouse ∧
    (normalizeState (some raw) today now).rightMouse =
      toNumber raw.rightMouse ∧
    (normalizeState (some raw) today now).leftPad =
      toNumber raw.leftPad ∧
    (normalizeState (some raw) today now).rightPad =
      toNumber raw.rightPad ∧
    (normalizeState (some raw) today now).scrollUp =
      toNumber raw.scrollUp ∧
    (normalizeState (some raw) today now).scrollDown =
      toNumber raw.scrollDown ∧
    (normalizeState (some raw) today now).scrollLeft =
      toNumber raw.scrollLeft ∧
    (normalizeState (some raw) today now).scrollRight =
      toNumber raw.scrollRight ∧
    (∀ q : Rat, toNumber (.fin q) = q) ∧
    toNumber .nan = 0 ∧ toNumber .posInf = 0 ∧ toNumber .negInf = 0 := by
  have hn : normalizeState (some raw) today now =
      { date := today
        startedAt :=
          match raw.startedAt with
          | some n => if n.gtZero then n
              else (defaultState today now).startedAt
          | none => (defaultState today now).startedAt
        left := toNumber raw.left
        right := toNumber raw.right
        keys := toNumber raw.keys
        leftMouse := toNumber raw.leftMouse
        rightMouse := toNumber raw.rightMouse
        leftPad := toNumber raw.leftPad
        rightPad := toNumber raw.rightPad
        scrollUp := toNumber raw.scrollUp
        scrollDown := toNumber raw.scrollDown
        scrollLeft := toNumber raw.scrollLeft
        scrollRight := toNumber raw.scrollRight
        keyCounts := normalizeKeyCounts raw.keyCounts } := by
    simp only [normalizeState, hd]
    simp [ht]
  rw [hn]
  refine ⟨rfl, rfl, rfl, rfl, rfl, rfl, rfl, rfl, rfl, rfl, rfl,
    fun q => rfl, rfl, rfl, rfl⟩

/-- C3 counterexample: a stored record dated today whose `left` counter is
the finite negative number −5 is returned with `left = −5` — exactly the
stored value, violating the claimed non-negativity of loaded counters. -/
theorem load_negative_counterexample :
    (normalizeState (some rawNeg) "2026-10-11" 999).left = -5 ∧
    ((-5 : Rat) < 0) ∧
    (normalizeState (some rawNeg) "2026-10-11" 999).left =
      toNumber rawNeg.left := by
  refine ⟨rfl, by norm_num, rfl⟩

/-- Witness for `load_coerces_counters` on the negative-counter record. -/
theorem load_coerces_counters_witness :
    rawNeg.date = some "2026-10-11" ∧
    (normalizeState (some rawNeg) "2026-10-11" 999).left =
      toNumber rawNeg.left ∧
    (normalizeState (some rawNeg) "2026-10-11" 999).right =
      toNumber rawNeg.right :=
  ⟨rfl,
    (load_coerces_counters rawNeg "2026-10-11" 999 rfl (by decide)).1,
    (load_coerces_counters rawNeg "2026-10-11" 999 rfl (by decide)).2.1⟩

/-- Helper: the `normalizeKeyCounts` fold only ever adds strictly
positive values to the accumulator. -/
theorem nkc_fold_pos (entries : List (String × JsNum)) :
    ∀ acc : List (String × Rat), (∀ p ∈ acc, 0 < p.2) →
      ∀ p ∈ entries.foldl
        (fun out e =>
          let num := toNumber e.2
          if 0 < num then setAssoc out e.1 num else out) acc,
        0 < p.2 := by
  induction entries with
  | nil => intro acc hacc p hp; exact hacc p hp
  | cons e rest ih =>
    intro acc hacc p hp
    simp only [List.foldl_cons] at hp
    refine ih _ ?_ p hp
    intro q hq
    by_cases h : 0 < toNumber e.2
    · simp only [if_pos h] at hq
      rcases mem_setAssoc hq with h' | h'
      · rw [h']; exact h
      · exact hacc q h'
    · simp only [if_neg h] at hq
      exact hacc q hq

/-- Helper: with pairwise-distinct keys not yet bound in the accumulator,
the `normalizeKeyCounts` fold appends exactly the positive coercions, in
order. -/
theorem nkc_fold_eq (entries : List (String × JsNum)) :
    ∀ acc : List (String × Rat),
      (entries.map Prod.fst).Nodup →
      (∀ k ∈ entries.map Prod.fst, getAssoc acc k = none) →
      entries.foldl
        (fun out e =>
          let num := toNumber e.2
          if 0 < num then setAssoc out e.1 num else out) acc =
      acc ++ entries.filterMap
        (fun e =>
          let n := toNumber e.2
          if 0 < n then some (e.1, n) else none) := by
  induction entries with
  | nil => intro acc _ _; simp
  | cons e rest ih =>
    intro acc hnd hacc
    have hk : getAssoc acc e.1 = none := hacc e.1 (by simp)
    have hnd' : (rest.map Prod.fst).Nodup := by
      simpa using (List.nodup_cons.mp (by simpa using hnd)).2
    have hne : e.1 ∉ rest.map Prod.fst :=
      (List.nodup_cons.mp (by simpa using hnd)).1
    simp only [List.foldl_cons, List.filterMap_cons]
    by_cases h : 0 < toNumber e.2
    · simp only [if_pos h]
      rw [setAssoc_of_none _ _ _ hk]
      rw [ih (acc ++ [(e.1, toNumber e.2)]) hnd' ?_]
      · simp
      · intro k hkmem
        have hkk : getAssoc acc k = none := hacc k (by simp [hkmem])
        rw [getAssoc_append _ _ _ hkk]
        have : ¬ e.1 = k := fun hEq => hne (hEq ▸ hkmem)
        simp [getAssoc, this]
    · simp only [if_neg h]
      rw [ih acc hnd' (fun k hkmem => hacc k (by simp [hkmem]))]

/-- C8: for a record accepted as today's, the loaded `keyCounts` holds
exactly the stored entries whose value coerces to a strictly positive
finite number (with that coerced value), so every loaded value is
strictly positive; a non-object `keyCounts` loads as empty. -/
theorem loaded_keyCounts_exact (entries : List (String × JsNum))
    (hnd : (entries.map Prod.fst).Nodup) :
    (∀ p ∈ normalizeKeyCounts (some entries), 0 < p.2) ∧
    (∀ (k : String) (v : Rat),
      (k, v) ∈ normalizeKeyCounts (some entries) ↔
        ∃ r : JsNum, (k, r) ∈ entries ∧ toNumber r = v ∧ 0 < v) ∧
    normalizeKeyCounts none = [] := by
  have heq : normalizeKeyCounts (some entries) =
      entries.filterMap
        (fun e =>
          let n := toNumber e.2
          if 0 < n then some (e.1, n) else none) := by
    have := nkc_fold_eq entries [] hnd (fun k _ => rfl)
    simpa [normalizeKeyCounts] using this
  refine ⟨?_, ?_, rfl⟩
  · exact nkc_fold_pos entries [] (by simp)
  · intro k v
    rw [heq]
    constructor
    · intro hmem
      obtain ⟨e, he, hf⟩ := List.mem_filterMap.mp hmem
      by_cases h : 0 < toNumber e.2
      · simp only [if_pos h, Option.some.injEq] at hf
        obtain ⟨h1, h2⟩ := Prod.mk.injEq .. ▸ hf
        refine ⟨e.2, ?_, ?_, ?_⟩
        · rw [← h1]; exact he
        · exact h2
        · rw [← h2]; exact h
      · rw [if_neg h] at hf
        exact Option.noConfusion hf
    · intro ⟨r, hr, hv, hpos⟩
      refine List.mem_filterMap.mpr ⟨(k, r), hr, ?_⟩
      simp only
      rw [hv, if_pos hpos]

/-- Witness for `loaded_keyCounts_exact` on the mixed stored entries. -/
theorem loaded_keyCounts_exact_witness :
    (kcEntries.map Prod.fst).Nodup ∧
    ∀ p ∈ normalizeKeyCounts (some kcEntries), 0 < p.2 :=
  ⟨by decide, (loaded_keyCounts_exact kcEntries (by decide)).1⟩

/-- Helper: `bumpKeyS` preserves "total keys equals the sum of the
per-key counts, every per-key count a positive natural". -/
theorem bumpKeyS_keeps (k : String) (s : InputState)
    (h1 : s.keys = (s.keyCounts.map Prod.snd).sum)
    (h2 : ∀ p ∈ s.keyCounts, ∃ n : ℕ, p.2 = (n : Rat) ∧ 0 < n) :
    (bumpKeyS k s).keys =
        ((bumpKeyS k s).keyCounts.map Prod.snd).sum ∧
      ∀ p ∈ (bumpKeyS k s).keyCounts,
        ∃ n : ℕ, p.2 = (n : Rat) ∧ 0 < n := by
  constructor
  · simp only [bumpKeyS, sum_setAssoc]
    rw [h1]; ring
  · intro p hp
    simp only [bumpKeyS] at hp
    rcases mem_setAssoc hp with h | h
    · cases hg : getAssoc s.keyCounts k with
      | none =>
        refine ⟨1, ?_, one_pos⟩
        rw [h]
        simp [hg]
      | some v =>
        obtain ⟨n, hn, hnpos⟩ := h2 (k, v) (getAssoc_mem hg)
        have hn' : v = (n : Rat) := hn
        refine ⟨n + 1, ?_, by omega⟩
        rw [h]
        simp only [hg, Option.getD_some]
        rw [hn']
        push_cast
        ring
    · exact h2 p h

/-- Helper: the key invariant holds after any `bumpKey` fold from a state
satisfying it. -/
theorem applyKeys_keeps (names : List String) :
    ∀ s : InputState,
      s.keys = (s.keyCounts.map Prod.snd).sum →
      (∀ p ∈ s.keyCounts, ∃ n : ℕ, p.2 = (n : Rat) ∧ 0 < n) →
      (applyKeys names s).keys =
          ((applyKeys names s).keyCounts.map Prod.snd).sum ∧
        ∀ p ∈ (applyKeys names s).keyCounts,
          ∃ n : ℕ, p.2 = (n : Rat) ∧ 0 < n := by
  induction names with
  | nil => intro s h1 h2; exact ⟨h1, h2⟩
  | cons k rest ih =>
    intro s h1 h2
    have h := bumpKeyS_keeps k s h1 h2
    simpa [applyKeys] using ih (bumpKeyS k s) h.1 h.2

/-- C9: starting from the default zeroed state, after any finite sequence
of `incrementKey` calls the `keys` total equals the sum of the values in
`keyCounts`, and every stored per-key count is a strictly positive
natural number. -/
theorem bumpKey_invariant (names : List String) (today : String)
    (now : Rat) :
    (applyKeys names (defaultState today now)).keys =
      ((applyKeys names
        (defaultState today now)).keyCounts.map Prod.snd).sum ∧
    ∀ p ∈ (applyKeys names (defaultState today now)).keyCounts,
      ∃ n : ℕ, p.2 = (n : Rat) ∧ 0 < n := by
  refine applyKeys_keeps names (defaultState today now) ?_ ?_
  · simp [defaultState]
  · simp [defaultState]

/-- C10: for a record accepted as today's, the stored `startedAt` is kept
exactly when it is a JS number strictly greater than 0; otherwise it is
replaced by the load-time clock, so with a positive clock the loaded
`startedAt` is always positive. -/
theorem startedAt_positive (raw : RawState) (today : String) (now : Rat)
    (hd : raw.date = some today) (ht : today ≠ "") (hnow : 0 < now) :
    (∀ n : JsNum, raw.startedAt = some n → n.gtZero = true →
      (normalizeState (some raw) today now).startedAt = n) ∧
    ((raw.startedAt = none ∨
        ∃ n : JsNum, raw.startedAt = some n ∧ n.gtZero = false) →
      (normalizeState (some raw) today now).startedAt = .fin now) ∧
    (normalizeState (some raw) today now).startedAt.gtZero = true := by
  have hs : (normalizeState (some raw) today now).startedAt =
      match raw.startedAt with
      | some n => if n.gtZero then n else .fin now
      | none => .fin now := by
    simp only [normalizeState, hd]
    simp [ht, defaultState]
  refine ⟨?_, ?_, ?_⟩
  · intro n hn hpos
    rw [hs, hn]
    simp [hpos]
  · intro h
    rcases h with h | ⟨n, hn, hfalse⟩
    · rw [hs, h]
    · rw [hs, hn]
      simp [hfalse]
  · rw [hs]
    cases hsa : raw.startedAt with
    | none => simp [JsNum.gtZero, hnow]
    | some n =>
      by_cases hpos : n.gtZero = true
      · simp [hpos]
      · simp only [Bool.not_eq_true] at hpos
        simp only [hpos, Bool.false_eq_true, if_false]
        simp [JsNum.gtZero, hnow]

/-- Witness for `startedAt_positive` on a record whose stored `startedAt`
is the non-positive number 0. -/
theorem startedAt_positive_witness :
    rawNeg.startedAt = some (.fin 0) ∧
    (normalizeState (some rawNeg) "2026-10-11" 1).startedAt = .fin 1 :=
  ⟨rfl,
    (startedAt_positive rawNeg "2026-10-11" 1 rfl (by decide)
        one_pos).2.1
      (Or.inr ⟨.fin 0, rfl, by simp [JsNum.gtZero]⟩)⟩

end InputCounts
